import Mathlib

/-!
Shallow embedding of the core of the face-recognition attendance demo:
the user (identity) store and attendance ledger (`attendance-service`,
`src/unnamed/part_000`) and the mock face matcher
(`face-recognition-mock`, `src/unnamed/part_001`).

Modelling conventions:
* `localStorage` becomes an explicit state record threaded through each
  operation; `JSON.parse(localStorage.getItem(...) || "[]")` on a healthy
  store is reading the state's list.
* Timestamps (`new Date().toISOString()`) are naturals (milliseconds since
  the epoch); the calendar date `toISOString().split("T")[0]` is the UTC
  day number `t / 86400000`.
* `uuidv4()` results and the current time are passed as explicit
  parameters, since they are ambient inputs of the functions.
* Face descriptors are lists of rationals; `Math.random()` is an explicit
  rational parameter `r` with `0 ≤ r < 1`.
-/

/-- A registered user, as stored under `face-attendance-users`
(interface `UserData` in the source). -/
structure UserData where
  id : String
  name : String
  email : String
  faceDescriptor : List ℚ
  registeredAt : Nat
deriving DecidableEq, Repr

/-- One attendance marking, as stored under `face-attendance-records`
(interface `AttendanceRecord` in the source). -/
structure AttendanceRecord where
  id : String
  userId : String
  userName : String
  timestamp : Nat
  date : Nat
deriving DecidableEq, Repr

/-- Result of `checkAttendanceStatus` (interface `AttendanceStatus`). -/
structure AttendanceStatus where
  markedToday : Bool
  lastMarked : Option Nat
deriving DecidableEq, Repr

/-- The two `localStorage` keys, as one explicit store state. -/
structure State where
  users : List UserData
  records : List AttendanceRecord
deriving DecidableEq, Repr

/-- The error thrown by `markAttendance` (`throw new Error("User not found")`). -/
inductive AttError where
  | userNotFound
deriving DecidableEq, Repr

/-- The calendar-date component of a timestamp:
`new Date(t).toISOString().split("T")[0]` identifies the UTC day,
i.e. `t / 86400000` for `t` in milliseconds. -/
def dateOf (t : Nat) : Nat := t / 86400000

/-- Update the first element satisfying `p` (JS mutates the object found by
`Array.prototype.find`, which is the first match, then writes the array back). -/
def updateFirst (p : α → Bool) (f : α → α) : List α → List α
  | [] => []
  | x :: xs => if p x then f x :: xs else x :: updateFirst p f xs

/-- `registerUser` (`src/unnamed/part_000` lines 70-110), happy path
(storage reads and writes succeed): if a user with this email exists,
overwrite its `name`, `faceDescriptor` and `registeredAt` in place and
return it; otherwise append a new user with the fresh id. -/
def registerUser (st : State) (name email : String) (faceDescriptor : List ℚ)
    (freshId : String) (now : Nat) : UserData × State :=
  match st.users.find? (fun u => u.email == email) with
  | some existingUser =>
      let updated : UserData :=
        { existingUser with name := name, faceDescriptor := faceDescriptor, registeredAt := now }
      (updated,
        { st with
            users := updateFirst (fun u => u.email == email)
              (fun u => { u with name := name, faceDescriptor := faceDescriptor, registeredAt := now })
              st.users })
  | none =>
      let newUser : UserData :=
        { id := freshId, name := name, email := email,
          faceDescriptor := faceDescriptor, registeredAt := now }
      (newUser, { st with users := st.users ++ [newUser] })

/-- `checkAttendanceStatus` (`src/unnamed/part_000` lines 157-177):
`markedToday` is whether a record for `(userId, today)` exists; `lastMarked`
is the timestamp of the head of the user's records sorted by timestamp
descending (the JS comparator `(a, b) => bT - aT`, a stable sort), or
`none` when the user has no records. -/
def checkAttendanceStatus (records : List AttendanceRecord) (userId : String)
    (today : Nat) : AttendanceStatus :=
  let todayRecord := records.find? (fun r => r.userId == userId && r.date == today)
  let userRecords := records.filter (fun r => r.userId == userId)
  let sorted := userRecords.mergeSort (fun a b => b.timestamp ≤ a.timestamp)
  { markedToday := todayRecord.isSome
    lastMarked := sorted.head?.map (fun r => r.timestamp) }

/-- `markAttendance` (`src/unnamed/part_000` lines 180-215): throws
`"User not found"` when no user has the given id (leaving storage
untouched); otherwise, if a record for `(userId, today)` already exists,
returns it unchanged; otherwise appends a new record. The pair's second
component is the store after the call. -/
def markAttendance (st : State) (userId : String) (freshId : String) (now : Nat) :
    Except AttError AttendanceRecord × State :=
  match st.users.find? (fun u => u.id == userId) with
  | none => (Except.error AttError.userNotFound, st)
  | some user =>
      let today := dateOf now
      match st.records.find? (fun r => r.userId == userId && r.date == today) with
      | some existingRecord => (Except.ok existingRecord, st)
      | none =>
          let newRecord : AttendanceRecord :=
            { id := freshId, userId := user.id, userName := user.name,
              timestamp := now, date := today }
          (Except.ok newRecord, { st with records := st.records ++ [newRecord] })

/-- `getAttendanceRecords` (`src/unnamed/part_000` lines 218-225): all
records sorted by timestamp descending (newest first). -/
def getAttendanceRecords (records : List AttendanceRecord) : List AttendanceRecord :=
  records.mergeSort (fun a b => b.timestamp ≤ a.timestamp)

/-- Store states reachable from empty storage by the mutating operations. -/
inductive Reachable : State → Prop
  | init : Reachable ⟨[], []⟩
  | register (st : State) (name email : String) (faceDescriptor : List ℚ)
      (freshId : String) (now : Nat) :
      Reachable st → Reachable (registerUser st name email faceDescriptor freshId now).2
  | mark (st : State) (userId freshId : String) (now : Nat) :
      Reachable st → Reachable (markAttendance st userId freshId now).2

/-- At most one attendance record per `(userId, date)` pair. -/
def OnePerDay (st : State) : Prop :=
  ∀ uid d, (st.records.countP (fun r => r.userId == uid && r.date == d)) ≤ 1

/-- At most one user per email. -/
def EmailUnique (st : State) : Prop :=
  ∀ e, (st.users.countP (fun u => u.email == e)) ≤ 1

/-! ### The mock face matcher (`src/unnamed/part_001`) -/

/-- `MockLabeledFaceDescriptors`: a label with its reference descriptors. -/
structure MockLabeledFaceDescriptors where
  label : String
  descriptors : List (List ℚ)
deriving DecidableEq, Repr

/-- The `{ label, distance }` object returned by `findBestMatch`. -/
structure MatchResult where
  label : String
  distance : ℚ
deriving DecidableEq, Repr

/-- `mockFindBestMatch` (`src/unnamed/part_001` lines 75-94): if the
candidate list is non-empty, pick the candidate at index
`Math.floor(Math.random() * length)` — the random draw `r` is an explicit
input — and return its label with constant distance `0.3`; otherwise
return `"unknown"` with distance `1.0`. The query `descriptor` is never
consulted. -/
def mockFindBestMatch (descriptor : List ℚ)
    (labeledDescriptors : List MockLabeledFaceDescriptors) (r : ℚ) : MatchResult :=
  if labeledDescriptors.length > 0 then
    let randomIndex := (Int.floor (r * labeledDescriptors.length)).toNat
    let selectedDescriptor := labeledDescriptors.getD randomIndex ⟨"", []⟩
    { label := selectedDescriptor.label, distance := 3/10 }
  else
    { label := "unknown", distance := 1 }

/-- `MockFaceMatcher` (`src/unnamed/part_001` lines 119-143): holds the
candidate list and a distance threshold (constructor default `0.6`). -/
structure MockFaceMatcher where
  labeledDescriptors : List MockLabeledFaceDescriptors
  distanceThreshold : ℚ := 6/10
deriving DecidableEq, Repr

/-- `MockFaceMatcher.findBestMatch` (`src/unnamed/part_001` lines 128-142):
if the candidate list is non-empty return its first element's label with
constant distance `0.3`; otherwise `"unknown"` with distance `1.0`. The
query `descriptor` and the threshold are never consulted. -/
def MockFaceMatcher.findBestMatch (m : MockFaceMatcher) (descriptor : List ℚ) :
    MatchResult :=
  match m.labeledDescriptors with
  | first :: _ => { label := first.label, distance := 3/10 }
  | [] => { label := "unknown", distance := 1 }

/-! ### Registration with a fallible storage (`registerUser` lines 70-131) -/

/-- A storage medium whose reads or writes can fail (`localStorage.getItem`
/ `localStorage.setItem` throwing). -/
structure Stor where
  users : List UserData
  readFails : Bool
  writeFails : Bool
deriving DecidableEq, Repr

/-- `registerUser` (`src/unnamed/part_000` lines 70-131) with its error
handling: reading the user list inside an inner try/catch (a failed read
resets the stored list to `[]` and continues), the upsert, and the outer
catch that builds a fallback user from the inputs, tries to save
`[fallbackUser]`, and returns it. `freshId` and `fallbackId` are the two
possible `uuidv4()` draws. Returns the value `return`ed to the caller and
the persisted store. -/
def registerUserF (stor : Stor) (name email : String) (faceDescriptor : List ℚ)
    (freshId fallbackId : String) (now : Nat) : UserData × Stor :=
  let fallbackUser : UserData :=
    { id := fallbackId, name := name, email := email,
      faceDescriptor := faceDescriptor, registeredAt := now }
  if stor.readFails then
    if stor.writeFails then
      -- the inner catch's reset write throws; the outer catch's save also
      -- throws; the fallback user is returned and nothing is persisted
      (fallbackUser, stor)
    else
      -- the inner catch resets the stored list to []; the upsert then finds
      -- no existing email and persists the new user alone
      let newUser : UserData :=
        { id := freshId, name := name, email := email,
          faceDescriptor := faceDescriptor, registeredAt := now }
      (newUser, { stor with users := [newUser] })
  else
    if stor.writeFails then
      -- the upsert's write throws; the outer catch's save also throws; the
      -- fallback user is returned and the store keeps its previous contents
      (fallbackUser, stor)
    else
      let (u, st') := registerUser ⟨stor.users, []⟩ name email faceDescriptor freshId now
      (u, { stor with users := st'.users })

/-! ### Helper lemmas -/

theorem randomIndex_lt (r : ℚ) (n : ℕ) (h0 : 0 ≤ r) (h1 : r < 1) (hn : 0 < n) :
    (Int.floor (r * (n : ℚ))).toNat < n := by
  have hfl : Int.floor (r * (n : ℚ)) < (n : ℤ) := by
    apply Int.floor_lt.mpr
    push_cast
    calc r * n < 1 * n := by
          exact mul_lt_mul_of_pos_right h1 (by exact_mod_cast hn)
      _ = n := one_mul _
  omega

/-! ### Claim theorems: the matcher -/

/-- C8: for every query embedding `e` (and any random draw and threshold),
matching against the empty candidate set returns the sentinel label
`"unknown"` with distance exactly `1.0`, in both the mock closure and the
`MockFaceMatcher` class, and never fails. -/
theorem match_empty_returns_unknown (e : List ℚ) (r th : ℚ) :
    mockFindBestMatch e [] r = ⟨"unknown", 1⟩ ∧
    (MockFaceMatcher.mk [] th).findBestMatch e = ⟨"unknown", 1⟩ :=
  ⟨rfl, rfl⟩

/-- C10: for every non-empty candidate list, both `findBestMatch`
implementations report distance exactly `0.3` and the label of one of the
candidates, whatever the query embedding and the candidates' embedding
values are — the distance is a constant, not a measured quantity. -/
theorem findBestMatch_constant_distance (e : List ℚ)
    (cs : List MockLabeledFaceDescriptors) (r th : ℚ)
    (h0 : 0 ≤ r) (h1 : r < 1) (hne : cs ≠ []) :
    (mockFindBestMatch e cs r).distance = 3/10 ∧
    (mockFindBestMatch e cs r).label ∈ cs.map MockLabeledFaceDescriptors.label ∧
    ((MockFaceMatcher.mk cs th).findBestMatch e).distance = 3/10 ∧
    ((MockFaceMatcher.mk cs th).findBestMatch e).label
      ∈ cs.map MockLabeledFaceDescriptors.label := by
  have hlen : 0 < cs.length := List.length_pos.mpr hne
  have hidx := randomIndex_lt r cs.length h0 h1 hlen
  refine ⟨?_, ?_, ?_, ?_⟩
  · simp [mockFindBestMatch, hlen]
  · simp only [mockFindBestMatch, if_pos hlen]
    rw [List.getD_eq_getElem _ _ hidx]
    exact List.mem_map.mpr ⟨_, List.getElem_mem hidx, rfl⟩
  · match cs, hne with
    | c :: rest, _ => rfl
  · match cs, hne with
    | c :: rest, _ =>
        simpa [MockFaceMatcher.findBestMatch] using Or.inl rfl

/-- Witness for C10 at a concrete input. -/
theorem findBestMatch_constant_distance_witness :
    (0:ℚ) ≤ 0 ∧ (0:ℚ) < 1 ∧ ([⟨"u1", [[0]]⟩] : List MockLabeledFaceDescriptors) ≠ [] ∧
    (mockFindBestMatch [] [⟨"u1", [[0]]⟩] 0).distance = 3/10 :=
  ⟨le_refl 0, by norm_num, by simp,
    (findBestMatch_constant_distance [] [⟨"u1", [[0]]⟩] 0 (6/10)
      (le_refl 0) (by norm_num) (by simp)).1⟩

/-- C2 counterexample: on the spec's own scenario — candidates
`[("u1", [0,0,0]), ("u2", [10,10,10])]`, query `[0, 0, 0.1]`, threshold
`0.6` — the mock closure (with random draw `1/2`) returns label `"u2"`,
not `"u1"`, and the `MockFaceMatcher` class returns distance `0.3`, not
the Euclidean distance `≈ 0.1`. -/
theorem matcher_euclidean_counterexample :
    (mockFindBestMatch [0, 0, 1/10]
        [⟨"u1", [[0, 0, 0]]⟩, ⟨"u2", [[10, 10, 10]]⟩] (1/2)).label = "u2" ∧
    ((MockFaceMatcher.mk [⟨"u1", [[0, 0, 0]]⟩, ⟨"u2", [[10, 10, 10]]⟩] (6/10)).findBestMatch
        [0, 0, 1/10]).distance = 3/10 := by
  constructor
  · have hfloor : Int.floor ((1/2 : ℚ) * (2 : ℕ)) = 1 := by norm_num
    simp only [mockFindBestMatch, List.length_cons, List.length_nil]
    norm_num [hfloor]
  · rfl

/-- C2 amended: `findBestMatch` computes no distances at all. Its result is
independent of the query embedding; on a non-empty candidate list the
`MockFaceMatcher` class returns the first candidate's label with constant
distance `0.3` (the closure returns the label of the candidate selected by
the random draw, with the same constant distance), and on the spec's
scenario candidates the class returns `("u1", 0.3)`, not a measured
distance `≈ 0.1`. -/
theorem matcher_ignores_distances (q q' : List ℚ)
    (cs : List MockLabeledFaceDescriptors) (r th : ℚ) (hne : cs ≠ []) :
    mockFindBestMatch q cs r = mockFindBestMatch q' cs r ∧
    (mockFindBestMatch q cs r).distance = 3/10 ∧
    (MockFaceMatcher.mk cs th).findBestMatch q = ⟨(cs.head hne).label, 3/10⟩ ∧
    (MockFaceMatcher.mk [⟨"u1", [[0, 0, 0]]⟩, ⟨"u2", [[10, 10, 10]]⟩] (6/10)).findBestMatch
        [0, 0, 1/10] = ⟨"u1", 3/10⟩ := by
  refine ⟨rfl, ?_, ?_, rfl⟩
  · have hlen : 0 < cs.length := List.length_pos.mpr hne
    simp [mockFindBestMatch, hlen]
  · match cs, hne with
    | c :: rest, _ => rfl

/-- Witness for C2's amended theorem at a concrete input. -/
theorem matcher_ignores_distances_witness :
    ([⟨"u1", [[0]]⟩, ⟨"u2", [[1]]⟩] : List MockLabeledFaceDescriptors) ≠ [] ∧
    (MockFaceMatcher.mk [⟨"u1", [[0]]⟩, ⟨"u2", [[1]]⟩] (6/10)).findBestMatch [5]
      = ⟨"u1", 3/10⟩ :=
  ⟨by simp,
    (matcher_ignores_distances [5] [7] [⟨"u1", [[0]]⟩, ⟨"u2", [[1]]⟩] 0 (6/10)
      (by simp)).2.2.1⟩

/-- C4 counterexample: the mock closure's `findBestMatch` is not a
deterministic function of the query and candidates — two calls with the
same query embedding and the same candidate sequence but different ambient
`Math.random()` draws return different labels. -/
theorem matcher_randomness_counterexample :
    mockFindBestMatch [0] [⟨"u1", [[0]]⟩, ⟨"u2", [[0]]⟩] 0
      ≠ mockFindBestMatch [0] [⟨"u1", [[0]]⟩, ⟨"u2", [[0]]⟩] (1/2) := by
  have h1 : (mockFindBestMatch [0] [⟨"u1", [[0]]⟩, ⟨"u2", [[0]]⟩] 0).label = "u1" := by
    have hfloor : Int.floor ((0 : ℚ) * (2 : ℕ)) = 0 := by norm_num
    simp only [mockFindBestMatch, List.length_cons, List.length_nil]
    norm_num [hfloor]
  have h2 : (mockFindBestMatch [0] [⟨"u1", [[0]]⟩, ⟨"u2", [[0]]⟩] (1/2)).label = "u2" := by
    have hfloor : Int.floor ((1/2 : ℚ) * (2 : ℕ)) = 1 := by norm_num
    simp only [mockFindBestMatch, List.length_cons, List.length_nil]
    norm_num [hfloor]
  intro h
  rw [h, h2] at h1
  exact absurd h1 (by decide)

/-- C4 amended: both `findBestMatch` implementations ignore the query
embedding entirely (so for a fixed candidate list and a fixed random draw
they are reproducible), and `MockFaceMatcher.findBestMatch` always resolves
a non-empty candidate list to its first candidate in iteration order; only
the closure variant additionally depends on the ambient random draw. -/
theorem matcher_determinism_amended (q q' : List ℚ)
    (cs : List MockLabeledFaceDescriptors) (r th : ℚ) :
    (MockFaceMatcher.mk cs th).findBestMatch q
      = (MockFaceMatcher.mk cs th).findBestMatch q' ∧
    mockFindBestMatch q cs r = mockFindBestMatch q' cs r ∧
    (∀ first rest, cs = first :: rest →
      (MockFaceMatcher.mk cs th).findBestMatch q = ⟨first.label, 3/10⟩) := by
  refine ⟨rfl, rfl, ?_⟩
  rintro first rest rfl
  rfl

/-- Witness for C4's amended theorem at a concrete input. -/
theorem matcher_determinism_amended_witness :
    ([⟨"a", [[0]]⟩, ⟨"b", [[1]]⟩] : List MockLabeledFaceDescriptors)
      = ⟨"a", [[0]]⟩ :: [⟨"b", [[1]]⟩] ∧
    (MockFaceMatcher.mk [⟨"a", [[0]]⟩, ⟨"b", [[1]]⟩] (6/10)).findBestMatch [2]
      = ⟨"a", 3/10⟩ :=
  ⟨rfl,
    (matcher_determinism_amended [2] [3] [⟨"a", [[0]]⟩, ⟨"b", [[1]]⟩] 0 (6/10)).2.2
      ⟨"a", [[0]]⟩ [⟨"b", [[1]]⟩] rfl⟩

/-! ### Claim theorems: the user store and attendance ledger -/

theorem updateFirst_length (p : α → Bool) (f : α → α) (l : List α) :
    (updateFirst p f l).length = l.length := by
  induction l with
  | nil => rfl
  | cons x xs ih =>
      simp only [updateFirst]
      split <;> simp [ih]

theorem countP_updateFirst (p q : α → Bool) (f : α → α) (l : List α)
    (hf : ∀ x, q (f x) = q x) :
    (updateFirst p f l).countP q = l.countP q := by
  induction l with
  | nil => rfl
  | cons x xs ih =>
      simp only [updateFirst]
      split
      · simp [List.countP_cons, hf]
      · simp [List.countP_cons, ih]

theorem mem_updateFirst (p : α → Bool) (f : α → α) (l : List α) (u : α)
    (hu : u ∈ updateFirst p f l) :
    u ∈ l ∨ ∃ x ∈ l, p x = true ∧ u = f x := by
  induction l with
  | nil => simp [updateFirst] at hu
  | cons x xs ih =>
      simp only [updateFirst] at hu
      by_cases hp : p x
      · rw [if_pos hp] at hu
        rcases List.mem_cons.mp hu with h | h
        · exact Or.inr ⟨x, List.mem_cons_self x xs, hp, h⟩
        · exact Or.inl (List.mem_cons_of_mem x h)
      · rw [if_neg hp] at hu
        rcases List.mem_cons.mp hu with h | h
        · exact Or.inl (h ▸ List.mem_cons_self x xs)
        · rcases ih h with h' | ⟨y, hy, hpy, hfy⟩
          · exact Or.inl (List.mem_cons_of_mem x h')
          · exact Or.inr ⟨y, List.mem_cons_of_mem x hy, hpy, hfy⟩

/-- In a list with at most one `p`-element, any `p`-element of
`updateFirst p f l` is the image under `f` of the element `find?` locates
(provided `f` preserves `p`). -/
theorem mem_updateFirst_of_p (p : α → Bool) (f : α → α) (l : List α) (u : α)
    (hf : ∀ x, p (f x) = p x) (hcount : l.countP p ≤ 1)
    (hu : u ∈ updateFirst p f l) (hpu : p u = true) :
    ∃ x, l.find? p = some x ∧ u = f x := by
  induction l with
  | nil => simp [updateFirst] at hu
  | cons x xs ih =>
      simp only [updateFirst] at hu
      by_cases hp : p x
      · rw [if_pos hp] at hu
        refine ⟨x, by simp [List.find?_cons, hp], ?_⟩
        rcases List.mem_cons.mp hu with h | h
        · exact h
        · exfalso
          have h1 : 0 < xs.countP p := List.countP_pos_iff.mpr ⟨u, h, hpu⟩
          have h2 : (x :: xs).countP p = xs.countP p + 1 := by
            simp [hp]
          omega
      · rw [if_neg hp] at hu
        rcases List.mem_cons.mp hu with h | h
        · exact absurd (h ▸ hpu) (by simpa using hp)
        · have hcount' : xs.countP p ≤ 1 := by
            have := List.countP_cons_of_neg (p := p) xs hp
            omega
          rcases ih hcount' h with ⟨y, hy, hfy⟩
          exact ⟨y, by simp [List.find?_cons, hp, hy], hfy⟩

/-- C6: `markAttendance(userId)` fails (with the sole error kind, the
`"User not found"` throw) if and only if no user with that id exists; on
that failure path the store is unchanged; and when the user exists the call
always succeeds — in particular it never fails because attendance was
already marked. -/
theorem markAttendance_error_spec (st : State) (uid fid : String) (now : Nat) :
    ((markAttendance st uid fid now).1 = Except.error AttError.userNotFound
        ↔ ∀ u ∈ st.users, u.id ≠ uid) ∧
    (∀ er, (markAttendance st uid fid now).1 = Except.error er →
        er = AttError.userNotFound ∧ (markAttendance st uid fid now).2 = st) ∧
    ((∃ u ∈ st.users, u.id = uid) →
        ∃ r, (markAttendance st uid fid now).1 = Except.ok r) := by
  cases hu : st.users.find? (fun u => u.id == uid) with
  | none =>
      have hnone := List.find?_eq_none.mp hu
      simp only [markAttendance, hu]
      refine ⟨⟨fun _ u hmem => by simpa using hnone u hmem, fun _ => by simp⟩, ?_, ?_⟩
      · rintro er her
        cases er
        simp
      · rintro ⟨u, hmem, hid⟩
        exact absurd (by simpa using hid) (hnone u hmem)
  | some user =>
      have huser : user.id = uid := by simpa using List.find?_some hu
      have hmem : user ∈ st.users := List.mem_of_find?_eq_some hu
      cases hr : st.records.find? (fun r => r.userId == uid && r.date == dateOf now) with
      | some existingRecord =>
          simp only [markAttendance, hu, hr]
          refine ⟨⟨fun h => by simp at h, fun h => absurd huser (h user hmem)⟩, ?_, ?_⟩
          · rintro er her
            simp at her
          · exact fun _ => ⟨existingRecord, rfl⟩
      | none =>
          simp only [markAttendance, hu, hr]
          refine ⟨⟨fun h => by simp at h, fun h => absurd huser (h user hmem)⟩, ?_, ?_⟩
          · rintro er her
            simp at her
          · exact fun _ => ⟨_, rfl⟩

/-- Witness for C6 at a concrete input: with the user `"u1"` registered,
marking attendance for `"u1"` succeeds. -/
theorem markAttendance_error_spec_witness :
    (∃ u ∈ [(⟨"u1", "Alice", "a@x.com", [1], 0⟩ : UserData)], u.id = "u1") ∧
    ∃ r, (markAttendance ⟨[⟨"u1", "Alice", "a@x.com", [1], 0⟩], []⟩ "u1" "r1" 1000).1
      = Except.ok r :=
  ⟨⟨_, List.mem_singleton.mpr rfl, rfl⟩,
    (markAttendance_error_spec ⟨[⟨"u1", "Alice", "a@x.com", [1], 0⟩], []⟩ "u1" "r1" 1000).2.2
      ⟨_, List.mem_singleton.mpr rfl, rfl⟩⟩

/-- The head of the ledger's descending sort is a record of maximal
timestamp among the sorted list's elements. -/
theorem mergeSort_head_max (l : List AttendanceRecord) (x : AttendanceRecord)
    (xs : List AttendanceRecord)
    (h : l.mergeSort (fun a b => b.timestamp ≤ a.timestamp) = x :: xs) :
    x ∈ l ∧ ∀ r ∈ l, r.timestamp ≤ x.timestamp := by
  have hs := @List.sorted_mergeSort AttendanceRecord
      (fun a b => decide (b.timestamp ≤ a.timestamp))
      (fun a b c hab hbc => by simp only [decide_eq_true_eq] at *; omega)
      (fun a b => by simpa using Nat.le_total b.timestamp a.timestamp) l
  rw [h] at hs
  have hx : x ∈ l := by
    have hx' : x ∈ l.mergeSort (fun a b => b.timestamp ≤ a.timestamp) := by
      rw [h]; exact List.mem_cons_self x xs
    exact List.mem_mergeSort.mp hx'
  refine ⟨hx, fun r hr => ?_⟩
  have hrm : r ∈ x :: xs := by
    rw [← h]; exact List.mem_mergeSort.mpr hr
  rcases List.mem_cons.mp hrm with h1 | h1
  · exact h1 ▸ le_refl _
  · simpa using (List.pairwise_cons.mp hs).1 r h1

theorem checkStatus_markedToday_iff (records : List AttendanceRecord)
    (uid : String) (asOf : Nat) :
    (checkAttendanceStatus records uid asOf).markedToday = true ↔
      ∃ r ∈ records, r.userId = uid ∧ r.date = asOf := by
  simp [checkAttendanceStatus, List.find?_isSome]

theorem checkStatus_lastMarked_none_iff (records : List AttendanceRecord)
    (uid : String) (asOf : Nat) :
    (checkAttendanceStatus records uid asOf).lastMarked = none ↔
      ∀ r ∈ records, r.userId ≠ uid := by
  unfold checkAttendanceStatus
  simp only [Option.map_eq_none', List.head?_eq_none_iff]
  constructor
  · intro h r hr hru
    have hmem : r ∈ records.filter (fun r => r.userId == uid) :=
      List.mem_filter.mpr ⟨hr, by simp [hru]⟩
    have : r ∈ (records.filter (fun r => r.userId == uid)).mergeSort
        (fun a b => b.timestamp ≤ a.timestamp) := List.mem_mergeSort.mpr hmem
    rw [h] at this
    simp at this
  · intro h
    have hfil : records.filter (fun r => r.userId == uid) = [] :=
      List.filter_eq_nil_iff.mpr (fun r hr => by simpa using h r hr)
    rw [hfil, List.mergeSort_nil]

theorem checkStatus_lastMarked_some (records : List AttendanceRecord)
    (uid : String) (asOf : Nat) (t : Nat)
    (h : (checkAttendanceStatus records uid asOf).lastMarked = some t) :
    (∃ r ∈ records, r.userId = uid ∧ r.timestamp = t) ∧
    ∀ r ∈ records, r.userId = uid → r.timestamp ≤ t := by
  unfold checkAttendanceStatus at h
  simp only [Option.map_eq_some'] at h
  obtain ⟨x, hx, hxt⟩ := h
  obtain ⟨xs, hcons⟩ : ∃ xs, (records.filter (fun r => r.userId == uid)).mergeSort
      (fun a b => b.timestamp ≤ a.timestamp) = x :: xs := by
    cases hs : (records.filter (fun r => r.userId == uid)).mergeSort
        (fun a b => b.timestamp ≤ a.timestamp) with
    | nil => rw [hs] at hx; simp at hx
    | cons a as =>
        rw [hs] at hx
        simp only [List.head?_cons, Option.some.injEq] at hx
        exact ⟨as, by rw [← hx]⟩
  obtain ⟨hxmem, hxmax⟩ := mergeSort_head_max _ x xs hcons
  have hxr : x ∈ records ∧ x.userId = uid := by
    have := List.mem_filter.mp hxmem
    exact ⟨this.1, by simpa using this.2⟩
  refine ⟨⟨x, hxr.1, hxr.2, hxt⟩, fun r hr hru => ?_⟩
  have hrf : r ∈ records.filter (fun r => r.userId == uid) :=
    List.mem_filter.mpr ⟨hr, by simp [hru]⟩
  exact hxt ▸ hxmax r hrf

/-- Marking on two distinct days (for a user with no earlier records)
leaves `lastMarked` at the second day's timestamp. -/
theorem mark_twice_lastMarked (st : State) (uid f1 f2 : String) (t1 t2 : Nat)
    (e1 : AttendanceRecord) (st1 : State) (e2 : AttendanceRecord) (st2 : State)
    (hnone : ∀ r ∈ st.records, r.userId ≠ uid)
    (hd : dateOf t1 ≠ dateOf t2) (ht : t1 < t2)
    (h1 : markAttendance st uid f1 t1 = (Except.ok e1, st1))
    (h2 : markAttendance st1 uid f2 t2 = (Except.ok e2, st2)) :
    (checkAttendanceStatus st2.records uid (dateOf t2)).lastMarked = some t2 := by
  cases hu : st.users.find? (fun u => u.id == uid) with
  | none => simp [markAttendance, hu] at h1
  | some user =>
      have huser : user.id = uid := by simpa using List.find?_some hu
      have hr1 : st.records.find?
          (fun r => r.userId == uid && r.date == dateOf t1) = none := by
        apply List.find?_eq_none.mpr
        intro r hr
        simp only [Bool.and_eq_true, beq_iff_eq, not_and]
        intro hru
        exact absurd hru (hnone r hr)
      simp only [markAttendance, hu, hr1, Prod.mk.injEq, Except.ok.injEq] at h1
      obtain ⟨he1, hst1⟩ := h1
      subst he1
      subst hst1
      have hl2 : st.records.find?
          (fun r => r.userId == uid && r.date == dateOf t2) = none := by
        apply List.find?_eq_none.mpr
        intro r hr
        simp only [Bool.and_eq_true, beq_iff_eq, not_and]
        intro hru
        exact absurd hru (hnone r hr)
      have hsing : List.find? (fun r => r.userId == uid && r.date == dateOf t2)
          [(⟨f1, user.id, user.name, t1, dateOf t1⟩ : AttendanceRecord)] = none := by
        simp [huser, hd]
      simp only [markAttendance, hu, List.find?_append, hl2, hsing, Option.none_or,
        Prod.mk.injEq, Except.ok.injEq] at h2
      obtain ⟨he2, hst2⟩ := h2
      subst he2
      subst hst2
      set r1 : AttendanceRecord := ⟨f1, user.id, user.name, t1, dateOf t1⟩ with hr1def
      set r2 : AttendanceRecord := ⟨f2, user.id, user.name, t2, dateOf t2⟩ with hr2def
      have he2mem : r2 ∈ (⟨st.users, st.records ++ [r1] ++ [r2]⟩ : State).records := by
        simp
      cases hl : (checkAttendanceStatus (st.records ++ [r1] ++ [r2]) uid
          (dateOf t2)).lastMarked with
      | none =>
          have := (checkStatus_lastMarked_none_iff (st.records ++ [r1] ++ [r2]) uid
            (dateOf t2)).mp hl r2 (by simp)
          exact absurd huser this
      | some t =>
          obtain ⟨⟨r, hrmem, hruid, hrt⟩, hmax⟩ :=
            checkStatus_lastMarked_some (st.records ++ [r1] ++ [r2]) uid (dateOf t2) t hl
          have htle : t2 ≤ t := hmax r2 (by simp) huser
          have hrcases : r ∈ st.records ∨ r = r1 ∨ r = r2 := by
            rcases List.mem_append.mp hrmem with h' | h'
            · rcases List.mem_append.mp h' with h'' | h''
              · exact Or.inl h''
              · exact Or.inr (Or.inl (List.mem_singleton.mp h''))
            · exact Or.inr (Or.inr (List.mem_singleton.mp h'))
          rcases hrcases with hmem | rfl | rfl
          · exact absurd hruid (hnone r hmem)
          · simp only [hr1def] at hrt
            omega
          · rw [← hrt]

/-- C5: `checkAttendanceStatus` returns `markedToday = true` iff a record
exists for `(userId, asOfDate)`; `lastMarked` is absent iff the user has no
records, and otherwise is the timestamp of the user's most recent record
across all dates (a record's timestamp, maximal among them); in particular
after marking on day D1 then on a later distinct day D2, `lastMarked` is
the D2 event's timestamp. -/
theorem checkAttendanceStatus_spec (records : List AttendanceRecord)
    (uid : String) (asOf : Nat) :
    ((checkAttendanceStatus records uid asOf).markedToday = true ↔
        ∃ r ∈ records, r.userId = uid ∧ r.date = asOf) ∧
    ((checkAttendanceStatus records uid asOf).lastMarked = none ↔
        ∀ r ∈ records, r.userId ≠ uid) ∧
    (∀ t, (checkAttendanceStatus records uid asOf).lastMarked = some t →
        (∃ r ∈ records, r.userId = uid ∧ r.timestamp = t) ∧
        ∀ r ∈ records, r.userId = uid → r.timestamp ≤ t) ∧
    (∀ (st : State) (f1 f2 : String) (t1 t2 : Nat) (e1 : AttendanceRecord)
        (st1 : State) (e2 : AttendanceRecord) (st2 : State),
      (∀ r ∈ st.records, r.userId ≠ uid) →
      dateOf t1 ≠ dateOf t2 → t1 < t2 →
      markAttendance st uid f1 t1 = (Except.ok e1, st1) →
      markAttendance st1 uid f2 t2 = (Except.ok e2, st2) →
      (checkAttendanceStatus st2.records uid (dateOf t2)).lastMarked = some t2) :=
  ⟨checkStatus_markedToday_iff records uid asOf,
   checkStatus_lastMarked_none_iff records uid asOf,
   fun t => checkStatus_lastMarked_some records uid asOf t,
   fun st f1 f2 t1 t2 e1 st1 e2 st2 hn hd ht h1 h2 =>
     mark_twice_lastMarked st uid f1 f2 t1 t2 e1 st1 e2 st2 hn hd ht h1 h2⟩

/-- Witness for C5 at a concrete input: one record for `("u1", day 0)`
makes `markedToday` true. -/
theorem checkAttendanceStatus_spec_witness :
    (∃ r ∈ [(⟨"r1", "u1", "Alice", 1000, 0⟩ : AttendanceRecord)],
        r.userId = "u1" ∧ r.date = 0) ∧
    (checkAttendanceStatus [⟨"r1", "u1", "Alice", 1000, 0⟩] "u1" 0).markedToday = true :=
  ⟨⟨_, List.mem_singleton.mpr rfl, rfl, rfl⟩,
    (checkAttendanceStatus_spec [⟨"r1", "u1", "Alice", 1000, 0⟩] "u1" 0).1.mpr
      ⟨_, List.mem_singleton.mpr rfl, rfl, rfl⟩⟩

unseal List.merge List.mergeSort in
/-- C9: `getAttendanceRecords` returns the stored events sorted by
timestamp descending (newest first): the result is a permutation of the
stored records and is pairwise ordered by decreasing timestamp; for three
events stored in marking order at times T1 = 20, T2 = 10, T3 = 30 (so
T3 > T1 > T2, marked in the order T2, T1, T3), the returned order is
[T3, T1, T2]. -/
theorem getAttendanceRecords_sorted (records : List AttendanceRecord) :
    (getAttendanceRecords records).Perm records ∧
    (getAttendanceRecords records).Pairwise (fun a b => b.timestamp ≤ a.timestamp) ∧
    getAttendanceRecords
        [⟨"rT2", "u", "Bob", 10, 0⟩, ⟨"rT1", "u", "Bob", 20, 0⟩,
         ⟨"rT3", "u", "Bob", 30, 0⟩]
      = [⟨"rT3", "u", "Bob", 30, 0⟩, ⟨"rT1", "u", "Bob", 20, 0⟩,
         ⟨"rT2", "u", "Bob", 10, 0⟩] := by
  refine ⟨List.mergeSort_perm records _, ?_, by decide⟩
  have hs := @List.sorted_mergeSort AttendanceRecord
      (fun a b => decide (b.timestamp ≤ a.timestamp))
      (fun a b c hab hbc => by simp only [decide_eq_true_eq] at *; omega)
      (fun a b => by simpa using Nat.le_total b.timestamp a.timestamp) records
  exact List.Pairwise.imp (fun h => of_decide_eq_true h) hs

theorem markAttendance_users (st : State) (uid fid : String) (now : Nat) :
    (markAttendance st uid fid now).2.users = st.users := by
  cases hu : st.users.find? (fun u => u.id == uid) with
  | none => simp [markAttendance, hu]
  | some user =>
      cases hr : st.records.find? (fun r => r.userId == uid && r.date == dateOf now) with
      | some existingRecord => simp [markAttendance, hu, hr]
      | none => simp [markAttendance, hu, hr]

theorem registerUser_records (st : State) (n e : String) (d : List ℚ)
    (fid : String) (now : Nat) :
    (registerUser st n e d fid now).2.records = st.records := by
  cases hu : st.users.find? (fun u => u.email == e) with
  | none => simp [registerUser, hu]
  | some u => simp [registerUser, hu]

theorem onePerDay_mark (st : State) (uid fid : String) (now : Nat)
    (h : OnePerDay st) : OnePerDay (markAttendance st uid fid now).2 := by
  cases hu : st.users.find? (fun u => u.id == uid) with
  | none =>
      have heq : (markAttendance st uid fid now).2 = st := by simp [markAttendance, hu]
      rw [heq]; exact h
  | some user =>
      have huser : user.id = uid := by simpa using List.find?_some hu
      cases hr : st.records.find? (fun r => r.userId == uid && r.date == dateOf now) with
      | some existingRecord =>
          have heq : (markAttendance st uid fid now).2 = st := by
            simp [markAttendance, hu, hr]
          rw [heq]; exact h
      | none =>
          have heq : (markAttendance st uid fid now).2
              = ⟨st.users, st.records
                  ++ [⟨fid, user.id, user.name, now, dateOf now⟩]⟩ := by
            simp [markAttendance, hu, hr]
          rw [heq]
          intro uid' d'
          simp only [List.countP_append]
          by_cases hcase : uid' = uid ∧ d' = dateOf now
          · obtain ⟨rfl, rfl⟩ := hcase
            have hzero : st.records.countP
                (fun r => r.userId == uid' && r.date == dateOf now) = 0 :=
              List.countP_eq_zero.mpr (by simpa using List.find?_eq_none.mp hr)
            have hone : List.countP (fun r => r.userId == uid' && r.date == dateOf now)
                [(⟨fid, user.id, user.name, now, dateOf now⟩ : AttendanceRecord)] ≤ 1 := by
              simp [List.countP_cons, huser]
            omega
          · have hle := h uid' d'
            have hnr : List.countP (fun r => r.userId == uid' && r.date == d')
                [(⟨fid, user.id, user.name, now, dateOf now⟩ : AttendanceRecord)] = 0 := by
              apply List.countP_eq_zero.mpr
              intro a ha
              rcases List.mem_singleton.mp ha with rfl
              simp only [Bool.and_eq_true, beq_iff_eq, not_and]
              intro ha1 ha2
              exact hcase ⟨by rw [← ha1, huser], ha2.symm ▸ rfl⟩
            omega

theorem reachable_onePerDay (st : State) (h : Reachable st) : OnePerDay st := by
  induction h with
  | init => intro uid d; simp [OnePerDay]
  | register st' n e d fid now _ ih =>
      intro uid dd
      rw [registerUser_records]
      exact ih uid dd
  | mark st' uid fid now _ ih => exact onePerDay_mark st' uid fid now ih

/-- C1: in every reachable store state at most one AttendanceEvent exists
per `(identityId, calendarDate)` pair; and for two successful `mark` calls
whose times fall on the same calendar date, the second call creates
nothing (the store is unchanged), returns the same event as the first, and
the ledger holds exactly one event for that pair. -/
theorem attendance_once_per_day (st : State) (h : Reachable st) :
    OnePerDay st ∧
    ∀ (uid f1 f2 : String) (t1 t2 : Nat) (e1 : AttendanceRecord) (st1 : State)
      (e2 : AttendanceRecord) (st2 : State),
      dateOf t1 = dateOf t2 →
      markAttendance st uid f1 t1 = (Except.ok e1, st1) →
      markAttendance st1 uid f2 t2 = (Except.ok e2, st2) →
      e2 = e1 ∧ st2 = st1 ∧
      st1.records.countP (fun r => r.userId == uid && r.date == dateOf t1) = 1 := by
  refine ⟨reachable_onePerDay st h, ?_⟩
  intro uid f1 f2 t1 t2 e1 st1 e2 st2 hd h1 h2
  cases hu : st.users.find? (fun u => u.id == uid) with
  | none => simp [markAttendance, hu] at h1
  | some user =>
      have huser : user.id = uid := by simpa using List.find?_some hu
      cases hr : st.records.find? (fun r => r.userId == uid && r.date == dateOf t1) with
      | some ex =>
          simp only [markAttendance, hu, hr, Prod.mk.injEq, Except.ok.injEq] at h1
          obtain ⟨he1, hst1⟩ := h1
          subst he1
          subst hst1
          simp only [markAttendance, hu] at h2
          rw [← hd, hr] at h2
          simp only [Prod.mk.injEq, Except.ok.injEq] at h2
          obtain ⟨he2, hst2⟩ := h2
          subst he2
          subst hst2
          refine ⟨rfl, rfl, ?_⟩
          have hmem := List.mem_of_find?_eq_some hr
          have hp := List.find?_some hr
          have hpos : 0 < st.records.countP
              (fun r => r.userId == uid && r.date == dateOf t1) :=
            List.countP_pos_iff.mpr ⟨ex, hmem, hp⟩
          have hle := reachable_onePerDay st h uid (dateOf t1)
          omega
      | none =>
          simp only [markAttendance, hu, hr, Prod.mk.injEq, Except.ok.injEq] at h1
          obtain ⟨he1, hst1⟩ := h1
          subst he1
          subst hst1
          have hfind : List.find? (fun r => r.userId == uid && r.date == dateOf t2)
              (st.records ++ [(⟨f1, user.id, user.name, t1, dateOf t1⟩ : AttendanceRecord)])
              = some ⟨f1, user.id, user.name, t1, dateOf t1⟩ := by
            rw [List.find?_append, ← hd, hr, Option.none_or]
            simp [huser]
          simp only [markAttendance, hu, hfind, Prod.mk.injEq, Except.ok.injEq] at h2
          obtain ⟨he2, hst2⟩ := h2
          subst he2
          subst hst2
          refine ⟨rfl, rfl, ?_⟩
          simp only [List.countP_append]
          have hzero : st.records.countP
              (fun r => r.userId == uid && r.date == dateOf t1) = 0 :=
            List.countP_eq_zero.mpr (by simpa using List.find?_eq_none.mp hr)
          have hone : List.countP (fun r => r.userId == uid && r.date == dateOf t1)
              [(⟨f1, user.id, user.name, t1, dateOf t1⟩ : AttendanceRecord)] = 1 := by
            simp [huser]
          omega

/-- Witness for C1 at a concrete reachable state: register Alice, mark at
t = 1000 ms and again at t = 7200000 ms (both day 0); the second call
returns the first event and the ledger holds exactly one event. -/
theorem attendance_once_per_day_witness :
    dateOf 1000 = dateOf 7200000 ∧
    (⟨"r1", "u1", "Alice", 1000, 0⟩ : AttendanceRecord)
      = ⟨"r1", "u1", "Alice", 1000, 0⟩ ∧
    (⟨[⟨"u1", "Alice", "a@x.com", [1], 0⟩], [⟨"r1", "u1", "Alice", 1000, 0⟩]⟩ : State)
      = ⟨[⟨"u1", "Alice", "a@x.com", [1], 0⟩], [⟨"r1", "u1", "Alice", 1000, 0⟩]⟩ ∧
    ((⟨[⟨"u1", "Alice", "a@x.com", [1], 0⟩],
        [⟨"r1", "u1", "Alice", 1000, 0⟩]⟩ : State)).records.countP
      (fun r => r.userId == "u1" && r.date == dateOf 1000) = 1 :=
  ⟨rfl,
    (attendance_once_per_day
        (registerUser ⟨[], []⟩ "Alice" "a@x.com" [1] "u1" 0).2
        (Reachable.register ⟨[], []⟩ "Alice" "a@x.com" [1] "u1" 0 Reachable.init)).2
      "u1" "r1" "r2" 1000 7200000
      ⟨"r1", "u1", "Alice", 1000, 0⟩
      ⟨[⟨"u1", "Alice", "a@x.com", [1], 0⟩], [⟨"r1", "u1", "Alice", 1000, 0⟩]⟩
      ⟨"r1", "u1", "Alice", 1000, 0⟩
      ⟨[⟨"u1", "Alice", "a@x.com", [1], 0⟩], [⟨"r1", "u1", "Alice", 1000, 0⟩]⟩
      rfl rfl rfl⟩

theorem registerUser_countP_email (st : State) (n e : String) (d : List ℚ)
    (f : String) (t : Nat) :
    (registerUser st n e d f t).2.users.countP (fun u => u.email == e)
      = max 1 (st.users.countP (fun u => u.email == e)) := by
  cases hu : st.users.find? (fun u => u.email == e) with
  | none =>
      have hzero : st.users.countP (fun u => u.email == e) = 0 :=
        List.countP_eq_zero.mpr (List.find?_eq_none.mp hu)
      simp [registerUser, hu, List.countP_append, hzero]
  | some x =>
      have hpos : 0 < st.users.countP (fun u => u.email == e) :=
        List.countP_pos_iff.mpr ⟨x, List.mem_of_find?_eq_some hu,
          List.find?_some (p := fun u : UserData => u.email == e) hu⟩
      have hcnt := countP_updateFirst (fun u => u.email == e) (fun u => u.email == e)
          (fun u => { u with name := n, faceDescriptor := d, registeredAt := t }) st.users
          (fun x => rfl)
      simp only [registerUser, hu]
      rw [hcnt]
      omega

theorem registerUser_updates (st : State) (n e : String) (d : List ℚ)
    (f : String) (t : Nat)
    (hq : st.users.countP (fun u => u.email == e) ≤ 1) :
    ∀ u ∈ (registerUser st n e d f t).2.users, u.email = e →
      u.name = n ∧ u.faceDescriptor = d ∧ u.registeredAt = t := by
  cases hu : st.users.find? (fun v => v.email == e) with
  | none =>
      intro u hu' he
      have husers : (registerUser st n e d f t).2.users
          = st.users ++ [⟨f, n, e, d, t⟩] := by
        simp [registerUser, hu]
      rw [husers] at hu'
      rcases List.mem_append.mp hu' with h' | h'
      · exact absurd (by simp [he]) (List.find?_eq_none.mp hu u h')
      · rcases List.mem_singleton.mp h' with rfl
        exact ⟨rfl, rfl, rfl⟩
  | some x =>
      intro u hu' he
      have husers : (registerUser st n e d f t).2.users
          = updateFirst (fun v => v.email == e)
              (fun v => { v with name := n, faceDescriptor := d, registeredAt := t })
              st.users := by
        simp [registerUser, hu]
      rw [husers] at hu'
      obtain ⟨y, hy, hfy⟩ := mem_updateFirst_of_p (fun v => v.email == e)
          (fun v => { v with name := n, faceDescriptor := d, registeredAt := t })
          st.users u (fun v => rfl) hq hu' (by simp [he])
      subst hfy
      exact ⟨rfl, rfl, rfl⟩

/-- C3: `registerUser` upserts by email. If a user with the email exists,
it is overwritten in place — `name`, `faceDescriptor`, `registeredAt` —
and returned, with no new entry and no failure; otherwise a new user with
the freshly generated id is appended. After two registrations with the
same email (starting from a store with at most one user of that email),
exactly one user with that email exists, holding the second call's
fields. -/
theorem register_upsert_by_email (st : State) (n1 n2 e : String)
    (d1 d2 : List ℚ) (f1 f2 : String) (t1 t2 : Nat)
    (hq : st.users.countP (fun u => u.email == e) ≤ 1) :
    ((∃ u ∈ st.users, u.email = e) →
        ∃ u, st.users.find? (fun v => v.email == e) = some u ∧
          (registerUser st n1 e d1 f1 t1).1
            = { u with name := n1, faceDescriptor := d1, registeredAt := t1 } ∧
          (registerUser st n1 e d1 f1 t1).2.users.length = st.users.length) ∧
    ((∀ u ∈ st.users, u.email ≠ e) →
        (registerUser st n1 e d1 f1 t1).1.id = f1 ∧
        (registerUser st n1 e d1 f1 t1).2.users
          = st.users ++ [(registerUser st n1 e d1 f1 t1).1]) ∧
    ((registerUser (registerUser st n1 e d1 f1 t1).2 n2 e d2 f2 t2).2.users.countP
        (fun u => u.email == e) = 1 ∧
      ∀ u ∈ (registerUser (registerUser st n1 e d1 f1 t1).2 n2 e d2 f2 t2).2.users,
        u.email = e → u.name = n2 ∧ u.faceDescriptor = d2 ∧ u.registeredAt = t2) := by
  have hc1 := registerUser_countP_email st n1 e d1 f1 t1
  have hc2 := registerUser_countP_email (registerUser st n1 e d1 f1 t1).2 n2 e d2 f2 t2
  refine ⟨?_, ?_, ?_, ?_⟩
  · rintro ⟨u, hmem, he⟩
    have hsome : (st.users.find? (fun v => v.email == e)).isSome :=
      List.find?_isSome.mpr ⟨u, hmem, by simp [he]⟩
    obtain ⟨u0, hu0⟩ := Option.isSome_iff_exists.mp hsome
    refine ⟨u0, hu0, ?_, ?_⟩
    · simp [registerUser, hu0]
    · simp [registerUser, hu0, updateFirst_length]
  · intro hnone
    have hu : st.users.find? (fun v => v.email == e) = none :=
      List.find?_eq_none.mpr (fun v hv => by simpa using hnone v hv)
    constructor
    · simp [registerUser, hu]
    · simp [registerUser, hu]
  · rw [hc2, hc1]
    omega
  · apply registerUser_updates
    rw [hc1]
    omega

/-- Witness for C3 at a concrete input: registering Alice twice with the
same email leaves exactly one user with that email. -/
theorem register_upsert_by_email_witness :
    ((⟨[], []⟩ : State).users.countP (fun u => u.email == "a@x.com") ≤ 1) ∧
    (registerUser (registerUser ⟨[], []⟩ "Alice" "a@x.com" [1] "u1" 0).2
        "Alice B" "a@x.com" [2] "u2" 5).2.users.countP
      (fun u => u.email == "a@x.com") = 1 :=
  ⟨by simp,
    (register_upsert_by_email ⟨[], []⟩ "Alice" "Alice B" "a@x.com" [1] [2]
      "u1" "u2" 0 5 (by simp)).2.2.1⟩

/-- C7 counterexample: with Alice stored and a failing storage write,
`registerUser` swallows the failure and returns a fabricated success
record (fresh id `"fb1"`, never persisted — the store still holds only
Alice); and with a failing read but working writes, it overwrites the
stored identities with just the synthetic new user, losing Alice. -/
theorem register_fallback_counterexample :
    (registerUserF ⟨[⟨"u0", "Alice", "a@x.com", [1], 0⟩], false, true⟩
        "Bob" "b@y.com" [2] "f1" "fb1" 5).1
      = ⟨"fb1", "Bob", "b@y.com", [2], 5⟩ ∧
    (registerUserF ⟨[⟨"u0", "Alice", "a@x.com", [1], 0⟩], false, true⟩
        "Bob" "b@y.com" [2] "f1" "fb1" 5).2.users
      = [⟨"u0", "Alice", "a@x.com", [1], 0⟩] ∧
    (registerUserF ⟨[⟨"u0", "Alice", "a@x.com", [1], 0⟩], true, false⟩
        "Bob" "b@y.com" [2] "f1" "fb1" 5).2.users
      = [⟨"f1", "Bob", "b@y.com", [2], 5⟩] :=
  ⟨rfl, rfl, rfl⟩

/-- C7 amended: `registerUser` never propagates a storage failure. When the
write fails it catches the error and returns a fabricated fallback user
built from its inputs with a fresh id, leaving the persisted store
unchanged (so the returned "success" was never stored); when the read
fails but writes work, it resets the stored list and persists only the new
user, discarding all previously stored identities. -/
theorem register_fallback_amended (stor : Stor) (n e : String) (d : List ℚ)
    (f fb : String) (t : Nat) :
    (stor.writeFails = true →
      (registerUserF stor n e d f fb t).1 = ⟨fb, n, e, d, t⟩ ∧
      (registerUserF stor n e d f fb t).2 = stor) ∧
    (stor.readFails = true → stor.writeFails = false →
      (registerUserF stor n e d f fb t).1 = ⟨f, n, e, d, t⟩ ∧
      (registerUserF stor n e d f fb t).2.users = [⟨f, n, e, d, t⟩]) := by
  obtain ⟨users, readFails, writeFails⟩ := stor
  constructor
  · rintro rfl
    cases readFails <;> exact ⟨rfl, rfl⟩
  · rintro rfl rfl
    exact ⟨rfl, rfl⟩

/-- Witness for C7's amended theorem at a concrete input. -/
theorem register_fallback_amended_witness :
    (Stor.mk [⟨"u0", "Alice", "a@x.com", [1], 0⟩] false true).writeFails = true ∧
    (registerUserF ⟨[⟨"u0", "Alice", "a@x.com", [1], 0⟩], false, true⟩
        "Bob" "b@y.com" [2] "f1" "fb1" 5).2
      = ⟨[⟨"u0", "Alice", "a@x.com", [1], 0⟩], false, true⟩ :=
  ⟨rfl,
    ((register_fallback_amended ⟨[⟨"u0", "Alice", "a@x.com", [1], 0⟩], false, true⟩
      "Bob" "b@y.com" [2] "f1" "fb1" 5).1 rfl).2⟩
